import Mathlib

/-!
Verification of the EdDSA protocol layer of `src/ecdsa/eddsa.py`.

The Python module implements RFC 8032 Pure EdDSA on top of an external
"curve engine" (`ellipticcurve.PointEdwards` / `CurveEdTw`) and external hash
primitives (SHA-512, SHAKE-256).  The protocol layer itself — key length
checks, key pruning, the deterministic signature construction, the
verification equation and its error paths — is translated here definition by
definition.  Bytes are modelled as `List Nat` (each entry a byte value; the
Python code only ever stores values `< 256` in its bytearrays).  Machine
integers do not occur: Python integers are unbounded, as is `Nat`.

The curve engine and the hash primitives are not part of the source file.
The hash function is kept abstract (an arbitrary `List Nat → List Nat`
parameter).  The engine's prime-order subgroup is modelled from the spec
(section 6): a point of the subgroup generated by the base point is
represented by its discrete logarithm (an exponent `< order`), with
`scalar_mul` / `point_add` acting on exponents modulo the subgroup order and
a canonical fixed-length little-endian encoding of the exponent.
-/

set_option maxRecDepth 100000

/-- Python `int.bit_length()` (from the external `_compat` helper module):
number of bits needed to represent `n`, with `bit_length 0 = 0`.  The first
argument of the auxiliary function is fuel; `n` itself is always enough fuel
since the value halves at every step. -/
def bit_length_aux : Nat → Nat → Nat
  | _, 0 => 0
  | 0, _ + 1 => 0
  | fuel + 1, n + 1 => bit_length_aux fuel ((n + 1) / 2) + 1

/-- Python `int.bit_length()`. -/
def bit_length (n : Nat) : Nat := bit_length_aux n n

/-- Python `int_to_bytes(val, length, "little")` (external `_compat` helper):
little-endian fixed-width encoding.  The Python helper raises `OverflowError`
for `val ≥ 256 ^ length`; the code under verification only calls it with
values below the bound, where this truncating version agrees with it. -/
def int_to_bytes : Nat → Nat → List Nat
  | _, 0 => []
  | n, l + 1 => n % 256 :: int_to_bytes (n / 256) l

/-- Python `bytes_to_int(data, "little")` (external `_compat` helper):
little-endian interpretation of a byte string. -/
def bytes_to_int : List Nat → Nat
  | [] => 0
  | b :: bs => b + 256 * bytes_to_int bs

/-- The curve descriptor exposed by the engine's `CurveEdTw`: prime modulus,
coefficients, cofactor.  Modelled from the spec: curve identity is compared
by descriptor equality (`self.curve == curve_ed448` in the source); the
associated hash function is carried by `EdGenerator` below so that the
descriptor itself has decidable equality. -/
structure CurveEdTw where
  p : Nat
  a : Int
  d : Nat
  h : Nat
deriving DecidableEq

/-- `(bit_length(curve.p()) + 1 + 7) // 8` — "plus one for the sign bit and
round up", computed identically in `PublicKey.__init__` and
`PrivateKey.__init__`. -/
def CurveEdTw.baselen (c : CurveEdTw) : Nat := (bit_length c.p + 1 + 7) / 8

/-- edwards25519 parameters, RFC 7748 (module-level constants of the source). -/
def curve_ed25519 : CurveEdTw :=
  { p := 2 ^ 255 - 19
    a := -1
    d := 37095705934669439343138083508754565189542113879843219016388785533085940283555
    h := 8 }

/-- Subgroup order `_r` of edwards25519. -/
def order_ed25519 : Nat := 2 ^ 252 + 0x14DEF9DEA2F79CD65812631A5CF5D3ED

/-- edwards448 parameters, RFC 7748 (`_d = -39081 % _p`). -/
def curve_ed448 : CurveEdTw :=
  { p := 2 ^ 448 - 2 ^ 224 - 1
    a := 1
    d := 2 ^ 448 - 2 ^ 224 - 1 - 39081
    h := 4 }

/-- Subgroup order `_r` of edwards448. -/
def order_ed448 : Nat :=
  2 ^ 446 - 0x8335DC163BB124B65129C96FDE933D8D723A70AADC873D6D54A7BB0D

/-- The generator as handed to `PublicKey`/`PrivateKey`: it carries its curve
descriptor (`generator.curve()`), its subgroup order (`generator.order()`)
and — in this model — the curve's hash function (`curve.hash_func` in the
source; kept here so `CurveEdTw` stays decidably comparable). -/
structure EdGenerator where
  curve : CurveEdTw
  hash_func : List Nat → List Nat
  order : Nat

/-- `generator_ed25519`, parametrized by the external SHA-512 primitive. -/
def generator_ed25519 (hash : List Nat → List Nat) : EdGenerator :=
  { curve := curve_ed25519, hash_func := hash, order := order_ed25519 }

/-- `generator_ed448`, parametrized by the external SHAKE-256 primitive. -/
def generator_ed448 (hash : List Nat → List Nat) : EdGenerator :=
  { curve := curve_ed448, hash_func := hash, order := order_ed448 }

/-- Modelled from the spec: a point of the engine's prime-order subgroup is
represented by its exponent over the generator, reduced modulo the subgroup
order.  `scalar_mul(point, k)` multiplies the exponent by `k` modulo the
order (the generator has exact order `r`, so this is the subgroup's
arithmetic). -/
def scalar_mul (g : EdGenerator) (point k : Nat) : Nat := point * k % g.order

/-- Modelled from the spec: `point_add` on subgroup exponents. -/
def point_add (g : EdGenerator) (x y : Nat) : Nat := (x + y) % g.order

/-- Modelled from the spec: the engine's canonical fixed-length point
encoding (`point.to_bytes()`), here the little-endian bytes of the exponent
over `baselen` bytes. -/
def point_to_bytes (g : EdGenerator) (point : Nat) : List Nat :=
  int_to_bytes point g.curve.baselen

/-- Modelled from the spec: the engine's `PointEdwards.from_bytes`, which
fails on malformed encodings (the spec's `InvalidEncodedPoint`).  In this
model the valid encodings are exactly the canonical images of subgroup
points, i.e. byte strings whose little-endian value is below the subgroup
order. -/
def point_from_bytes (g : EdGenerator) (bs : List Nat) : Option Nat :=
  if bytes_to_int bs < g.order then some (bytes_to_int bs) else none

/-- The exponent of the generator point itself. -/
def generator_point : Nat := 1

/-- `dom`: `b"SigEd448" + b"\x00\x00"` (ASCII bytes of "SigEd448" followed by
phflag 0 and context length 0), selected in `sign`/`verify` when
`self.curve == curve_ed448`. -/
def dom448 : List Nat := [83, 105, 103, 69, 100, 52, 52, 56, 0, 0]

/-- Failure kinds of the translated operations, tagged by raise site.
`invalidKeyLength` and `invalidSignatureLength` carry the exact `ValueError`
message built at the raise site.  `invalidSignatureValue` is the
`raise ValueError("Invalid signature")` at the `S >= order` check and
`signatureVerificationFailed` the identical `raise ValueError("Invalid
signature")` at the verification-equation check; `pyException` below maps
each tag to the Python exception a caller actually observes.
`invalidEncodedPoint` is the engine's decode failure (modelled from the
spec). -/
inductive EdError where
  | invalidKeyLength (message : String)
  | invalidSignatureLength (message : String)
  | invalidEncodedPoint
  | invalidSignatureValue
  | signatureVerificationFailed
  | unsupportedCofactor (message : String)
deriving DecidableEq

/-- The Python exception (type, message) surfaced for each failure: both
value-level verification failures raise literally `ValueError("Invalid
signature")` (source lines 139 and 151).  The engine's decode failure is a
`MalformedPointError` (modelled from the spec; its message is engine-owned
and left empty here). -/
def pyException : EdError → String × String
  | .invalidKeyLength m => ("ValueError", m)
  | .invalidSignatureLength m => ("ValueError", m)
  | .invalidEncodedPoint => ("MalformedPointError", "")
  | .invalidSignatureValue => ("ValueError", "Invalid signature")
  | .signatureVerificationFailed => ("ValueError", "Invalid signature")
  | .unsupportedCofactor m => ("ValueError", m)

/-- `PublicKey`: stored fields of the Python object (`self.generator`,
`self.curve`, `self.__encoded`, `self.__point`, `self.baselen`). -/
structure PublicKey where
  generator : EdGenerator
  curve : CurveEdTw
  encoded : List Nat
  point : Nat
  baselen : Nat

/-- `PublicKey.__init__(generator, public_key, public_point=None)`.  The
second component counts the engine decode (`from_bytes`) calls performed:
`0` when `public_point` is supplied, `1` otherwise. -/
def mkPublicKey (generator : EdGenerator) (public_key : List Nat)
    (public_point : Option Nat) : Except EdError (PublicKey × Nat) :=
  let curve := generator.curve
  let baselen := curve.baselen
  if public_key.length ≠ baselen then
    .error (.invalidKeyLength
      ("Incorrect size of the public key, expected: " ++ toString baselen
        ++ " bytes"))
  else
    match public_point with
    | some pt =>
        .ok ({ generator := generator, curve := curve, encoded := public_key,
               point := pt, baselen := baselen }, 0)
    | none =>
        match point_from_bytes generator public_key with
        | none => .error .invalidEncodedPoint
        | some pt =>
            .ok ({ generator := generator, curve := curve,
                   encoded := public_key, point := pt, baselen := baselen }, 1)

/-- `PublicKey.__eq__`: same curve descriptor and identical encoded bytes;
the decoded points are never consulted. -/
def PublicKey.eq (a b : PublicKey) : Bool :=
  a.curve == b.curve && a.encoded == b.encoded

/-- `PublicKey.verify(data, signature)`, translated branch by branch in
source order: length check, decode of `R`, the `S >= order` check, the `dom`
selection, the hash `k`, and the verification equation
`generator * S != point * k + R`. -/
def PublicKey.verify (pk : PublicKey) (data signature : List Nat) :
    Except EdError Bool :=
  if signature.length ≠ 2 * pk.baselen then
    .error (.invalidSignatureLength
      ("Invalid signature length, expected: " ++ toString (2 * pk.baselen)
        ++ " bytes"))
  else
    match point_from_bytes pk.generator (signature.take pk.baselen) with
    | none => .error .invalidEncodedPoint
    | some R =>
        let S := bytes_to_int (signature.drop pk.baselen)
        if pk.generator.order ≤ S then .error .invalidSignatureValue
        else
          let dom := if pk.curve = curve_ed448 then dom448 else []
          let k := bytes_to_int (pk.generator.hash_func
            (dom ++ point_to_bytes pk.generator R ++ pk.encoded ++ data))
          if scalar_mul pk.generator generator_point S ≠
              point_add pk.generator (scalar_mul pk.generator pk.point k) R
          then .error .signatureVerificationFailed
          else .ok true

/-- `PrivateKey._key_prune(key)` (`self` only contributes `self.curve`).
The Python `key[0] &= ~((1 << h_log) - 1)` acts on a bytearray entry
(`0 ≤ key[0] < 256`), where the infinite-precision complement restricted to
a byte is `255 - ((1 <<< h_log) - 1)`. -/
def keyPrune (curve : CurveEdTw) (key : List Nat) : Except EdError (List Nat) :=
  match (if curve.h = 4 then some 2
         else if curve.h = 8 then some 3
         else none : Option Nat) with
  | none => .error (.unsupportedCofactor "Only cofactor 4 and 8 curves supported")
  | some h_log =>
    -- key[0] &= ~((1 << h_log) - 1)
    let key := key.set 0 (key.headD 0 &&& (255 - ((1 <<< h_log) - 1)))
    -- ensure the highest bit is set but no higher
    let l := bit_length curve.p
    if l % 8 = 0 then
      -- key[-1] = 0; key[-2] |= 0x80
      let key := key.set (key.length - 1) 0
      .ok (key.set (key.length - 2) (key.getD (key.length - 2) 0 ||| 0x80))
    else
      -- key[-1] = key[-1] & (1 << (l % 8)) - 1 | 1 << (l % 8) - 1
      .ok (key.set (key.length - 1)
        ((key.getD (key.length - 1) 0 &&& ((1 <<< (l % 8)) - 1)) |||
          (1 <<< (l % 8 - 1))))

/-- `PrivateKey`: stored fields of the Python object (`self.generator`,
`self.curve`, `self.baselen`, `self.__private_key`, `self.__h`,
`self.__public_key` — the memo cell, `None` at construction — and the pruned
scalar `self.__s`). -/
structure PrivateKey where
  generator : EdGenerator
  curve : CurveEdTw
  baselen : Nat
  private_key : List Nat
  h : List Nat
  public_key_cache : Option PublicKey
  s : Nat

/-- `PrivateKey.__init__(generator, private_key)`: length check, key
expansion `self.__h = hash(private_key)`, pruning of the low `baselen` bytes
and little-endian scalar extraction. -/
def mkPrivateKey (generator : EdGenerator) (private_key : List Nat) :
    Except EdError PrivateKey :=
  let curve := generator.curve
  let baselen := curve.baselen
  if private_key.length ≠ baselen then
    .error (.invalidKeyLength
      ("Incorrect size of private key, expected: " ++ toString baselen
        ++ " bytes"))
  else
    let hbytes := generator.hash_func private_key
    match keyPrune curve (hbytes.take baselen) with
    | .error e => .error e
    | .ok a =>
        .ok { generator := generator, curve := curve, baselen := baselen,
              private_key := private_key, h := hbytes,
              public_key_cache := none, s := bytes_to_int a }

/-- `PrivateKey.public_key()`.  Returns the `PublicKey`, the updated
`PrivateKey` (the Python method memoizes into `self.__public_key`), the
number of engine `scalar_mul` calls and the number of engine decode calls
performed. -/
def PrivateKey.publicKey (k : PrivateKey) :
    Except EdError (PublicKey × PrivateKey × Nat × Nat) :=
  match k.public_key_cache with
  | some pk => .ok (pk, k, 0, 0)
  | none =>
      let public_point := scalar_mul k.generator generator_point k.s
      match mkPublicKey k.generator (point_to_bytes k.generator public_point)
          (some public_point) with
      | .error e => .error e
      | .ok (pk, decodes) =>
          .ok (pk, { k with public_key_cache := some pk }, 1, decodes)

/-- `PrivateKey.sign(data)`: Pure EdDSA signature.  Returns the signature
bytes together with the updated `PrivateKey` (signing calls `public_key()`,
which memoizes). -/
def PrivateKey.sign (k : PrivateKey) (data : List Nat) :
    Except EdError (List Nat × PrivateKey) :=
  match k.publicKey with
  | .error e => .error e
  | .ok (pk, k1, _, _) =>
      let A := pk.encoded
      let pfx := k.h.drop k.baselen
      let dom := if k.curve = curve_ed448 then dom448 else []
      let r := bytes_to_int (k.generator.hash_func (dom ++ pfx ++ data))
      let Rb := point_to_bytes k.generator
        (scalar_mul k.generator generator_point r)
      let kk := bytes_to_int (k.generator.hash_func (dom ++ Rb ++ A ++ data))
        % k.generator.order
      let S := (r + kk * k.s) % k.generator.order
      .ok (Rb ++ int_to_bytes S k.baselen, k1)

/-! ### Byte-string arithmetic lemmas -/

theorem length_int_to_bytes (n l : Nat) : (int_to_bytes n l).length = l := by
  induction l generalizing n with
  | zero => rfl
  | succ l ih => simp [int_to_bytes, ih]

theorem bytes_to_int_int_to_bytes (n l : Nat) :
    bytes_to_int (int_to_bytes n l) = n % 256 ^ l := by
  induction l generalizing n with
  | zero => simp [int_to_bytes, bytes_to_int, Nat.mod_one]
  | succ l ih =>
      simp only [int_to_bytes, bytes_to_int, ih]
      rw [pow_succ', Nat.mod_mul]

theorem bytes_to_int_lt_pow (bs : List Nat) (h : ∀ b ∈ bs, b < 256) :
    bytes_to_int bs < 256 ^ bs.length := by
  induction bs with
  | nil => simp [bytes_to_int]
  | cons b bs ih =>
      have hb : b < 256 := h b (List.mem_cons_self b bs)
      have ht : bytes_to_int bs < 256 ^ bs.length :=
        ih fun x hx => h x (List.mem_cons_of_mem b hx)
      simp only [bytes_to_int, List.length_cons, pow_succ']
      omega

theorem bytes_to_int_append_single (xs : List Nat) (b : Nat) :
    bytes_to_int (xs ++ [b]) = bytes_to_int xs + b * 256 ^ xs.length := by
  induction xs with
  | nil => simp [bytes_to_int]
  | cons x xs ih =>
      show x + 256 * bytes_to_int (xs ++ [b]) =
        x + 256 * bytes_to_int xs + b * 256 ^ (xs.length + 1)
      rw [ih, pow_succ]
      ring

/-! ### List update helper lemmas -/

theorem listSetLast (xs : List Nat) (b v : Nat) :
    (xs ++ [b]).set xs.length v = xs ++ [v] := by
  induction xs with
  | nil => rfl
  | cons x xs ih => simp [List.set_cons_succ, ih]

theorem listGetDLast (xs : List Nat) (b d : Nat) :
    (xs ++ [b]).getD xs.length d = b := by
  induction xs with
  | nil => rfl
  | cons x xs ih => simpa [List.getD_cons_succ] using ih

theorem listSetLeft (xs ys : List Nat) (i v : Nat) (h : i < xs.length) :
    (xs ++ ys).set i v = xs.set i v ++ ys := by
  induction xs generalizing i with
  | nil => simp at h
  | cons x xs ih =>
      cases i with
      | zero => simp [List.set_cons_zero]
      | succ i =>
          simp only [List.length_cons, Nat.succ_lt_succ_iff] at h
          simp [List.set_cons_succ, ih i h]

theorem listGetDLeft (xs ys : List Nat) (i d : Nat) (h : i < xs.length) :
    (xs ++ ys).getD i d = xs.getD i d := by
  induction xs generalizing i with
  | nil => simp at h
  | cons x xs ih =>
      cases i with
      | zero => simp [List.getD_cons_zero]
      | succ i =>
          simp only [List.length_cons, Nat.succ_lt_succ_iff] at h
          rw [List.cons_append, List.getD_cons_succ, List.getD_cons_succ]
          exact ih i h

/-! ### Concrete curve facts -/

theorem bit_length_p_ed25519 : bit_length (2 ^ 255 - 19) = 255 := by decide

theorem bit_length_p_ed448 : bit_length (2 ^ 448 - 2 ^ 224 - 1) = 448 := by decide

theorem baselen_ed25519 : curve_ed25519.baselen = 32 := by decide

theorem baselen_ed448 : curve_ed448.baselen = 57 := by decide

theorem order_ed25519_pos : 0 < order_ed25519 := by decide

theorem order_ed448_pos : 0 < order_ed448 := by decide

theorem order_ed25519_le : order_ed25519 ≤ 256 ^ 32 := by decide

theorem order_ed448_le : order_ed448 ≤ 256 ^ 57 := by decide

/-! ### Shape of `_key_prune` on full-length inputs -/

/-- On a 32-byte input, ed25519 pruning clears the low 3 bits of the first
byte and replaces the last byte `b` by `(b &&& 127) ||| 64`. -/
theorem keyPrune_shape_ed25519 (k0 klast : Nat) (mid : List Nat) :
    keyPrune curve_ed25519 (k0 :: (mid ++ [klast])) =
      .ok ((k0 &&& 248) :: (mid ++ [(klast &&& 127) ||| 64])) := by
  have e1 : keyPrune curve_ed25519 (k0 :: (mid ++ [klast])) =
      .ok (((k0 &&& 248) :: (mid ++ [klast])).set
        (((k0 &&& 248) :: (mid ++ [klast])).length - 1)
        ((((k0 &&& 248) :: (mid ++ [klast])).getD
          (((k0 &&& 248) :: (mid ++ [klast])).length - 1) 0 &&& 127) ||| 64)) :=
    rfl
  have hL : ((k0 &&& 248) :: (mid ++ [klast])).length - 1 = mid.length + 1 := by
    simp
  rw [e1, hL, List.set_cons_succ, List.getD_cons_succ, listGetDLast,
    listSetLast]

/-- On a 57-byte input, ed448 pruning clears the low 2 bits of the first
byte, zeroes the last byte and sets the top bit of the second-to-last
byte. -/
theorem keyPrune_shape_ed448 (k0 k55 k56 : Nat) (mid : List Nat) :
    keyPrune curve_ed448 (k0 :: (mid ++ [k55, k56])) =
      .ok ((k0 &&& 252) :: (mid ++ [k55 ||| 128, 0])) := by
  have e1 : keyPrune curve_ed448 (k0 :: (mid ++ [k55, k56])) =
      .ok ((((k0 &&& 252) :: (mid ++ [k55, k56])).set
          ((((k0 &&& 252) :: (mid ++ [k55, k56])).length) - 1) 0).set
        (((((k0 &&& 252) :: (mid ++ [k55, k56])).set
          ((((k0 &&& 252) :: (mid ++ [k55, k56])).length) - 1) 0).length) - 2)
        ((((((k0 &&& 252) :: (mid ++ [k55, k56])).set
          ((((k0 &&& 252) :: (mid ++ [k55, k56])).length) - 1) 0).getD
          (((((k0 &&& 252) :: (mid ++ [k55, k56])).set
            ((((k0 &&& 252) :: (mid ++ [k55, k56])).length) - 1) 0).length) - 2)
          0)) ||| 128)) :=
    rfl
  have h2 : (k0 &&& 252) :: (mid ++ [k55, k56]) =
      (k0 &&& 252) :: ((mid ++ [k55]) ++ [k56]) :=
    congrArg (List.cons (k0 &&& 252)) (List.append_assoc mid [k55] [k56]).symm
  have hL1 : ((k0 &&& 252) :: ((mid ++ [k55]) ++ [k56])).length - 1 =
      (mid ++ [k55]).length + 1 := by simp
  rw [e1, h2, hL1, List.set_cons_succ, listSetLast]
  have hL2 : ((k0 &&& 252) :: ((mid ++ [k55]) ++ [0])).length - 2 =
      mid.length + 1 := by simp
  rw [hL2, List.set_cons_succ, List.getD_cons_succ]
  have hi : mid.length < (mid ++ [k55]).length := by simp
  rw [listGetDLeft _ _ _ _ hi, listGetDLast, listSetLeft _ _ _ _ hi,
    listSetLast, List.append_assoc]
  rfl

/-! ### Byte-level facts about the pruning masks -/

theorem byte_and_248 : ∀ x, x < 256 → (x &&& 248) % 8 = 0 ∧ x &&& 248 < 256 := by
  decide

theorem byte_and_127_or_64 :
    ∀ x, x < 256 → 64 ≤ ((x &&& 127) ||| 64) ∧ ((x &&& 127) ||| 64) < 128 := by
  decide

theorem byte_and_252 : ∀ x, x < 256 → (x &&& 252) % 4 = 0 ∧ x &&& 252 < 256 := by
  decide

theorem byte_or_128 : ∀ x, x < 256 → 128 ≤ (x ||| 128) ∧ (x ||| 128) < 256 := by
  decide

/-! ### Splitting byte strings of known length -/

theorem list_cons_of_length_succ (l : List Nat) (n : Nat) (h : l.length = n + 1) :
    ∃ x xs, l = x :: xs ∧ xs.length = n := by
  cases l with
  | nil => simp at h
  | cons x xs =>
      exact ⟨x, xs, rfl, by simpa using h⟩

theorem list_concat_of_length_succ (l : List Nat) (n : Nat)
    (h : l.length = n + 1) : ∃ xs x, l = xs ++ [x] ∧ xs.length = n := by
  have hne : l ≠ [] := by
    intro e
    rw [e] at h
    simp at h
  refine ⟨l.dropLast, l.getLast hne, (List.dropLast_append_getLast hne).symm, ?_⟩
  simp [List.length_dropLast, h]

/-! ### C4: cofactor multiple and exact bit length of the pruned scalar -/

theorem keyPrune_bounds_ed25519 (key pruned : List Nat)
    (hlen : key.length = 32) (hb : ∀ b ∈ key, b < 256)
    (hp : keyPrune curve_ed25519 key = .ok pruned) :
    bytes_to_int pruned % 8 = 0 ∧
      2 ^ 254 ≤ bytes_to_int pruned ∧ bytes_to_int pruned < 2 ^ 255 := by
  obtain ⟨k0, rest, rfl, hrest⟩ := list_cons_of_length_succ key 31 hlen
  obtain ⟨mid, klast, rfl, hmid⟩ := list_concat_of_length_succ rest 30 hrest
  rw [keyPrune_shape_ed25519] at hp
  injection hp with hp
  subst hp
  have hk0 : k0 < 256 := hb k0 (by simp)
  have hkl : klast < 256 := hb klast (by simp)
  have hmidb : ∀ b ∈ mid, b < 256 := fun b hbm => hb b (by simp [hbm])
  have hM := bytes_to_int_lt_pow mid hmidb
  rw [hmid] at hM
  have hA := byte_and_248 k0 hk0
  have hB := byte_and_127_or_64 klast hkl
  have hs : bytes_to_int ((k0 &&& 248) :: (mid ++ [(klast &&& 127) ||| 64])) =
      (k0 &&& 248) + 256 * (bytes_to_int mid +
        ((klast &&& 127) ||| 64) * 256 ^ 30) := by
    show (k0 &&& 248) + 256 * bytes_to_int (mid ++ [(klast &&& 127) ||| 64]) = _
    rw [bytes_to_int_append_single, hmid]
  rw [hs]
  have hP : (256 : Nat) ^ 30 =
      1766847064778384329583297500742918515827483896875618958121606201292619776 := by
    norm_num
  have h254 : (2 : Nat) ^ 254 =
      28948022309329048855892746252171976963317496166410141009864396001978282409984 := by
    norm_num
  have h255 : (2 : Nat) ^ 255 =
      57896044618658097711785492504343953926634992332820282019728792003956564819968 := by
    norm_num
  rw [hP] at hM ⊢
  rw [h254, h255]
  omega

theorem keyPrune_bounds_ed448 (key pruned : List Nat)
    (hlen : key.length = 57) (hb : ∀ b ∈ key, b < 256)
    (hp : keyPrune curve_ed448 key = .ok pruned) :
    bytes_to_int pruned % 4 = 0 ∧
      2 ^ 447 ≤ bytes_to_int pruned ∧ bytes_to_int pruned < 2 ^ 448 := by
  obtain ⟨k0, rest, rfl, hrest⟩ := list_cons_of_length_succ key 56 hlen
  obtain ⟨rest2, k56, rfl, hrest2⟩ := list_concat_of_length_succ rest 55 hrest
  obtain ⟨mid, k55, rfl, hmid⟩ := list_concat_of_length_succ rest2 54 hrest2
  rw [List.append_assoc] at hp
  have hp2 : keyPrune curve_ed448 (k0 :: (mid ++ [k55, k56])) = .ok pruned := hp
  rw [keyPrune_shape_ed448] at hp2
  injection hp2 with hp2
  subst hp2
  have hk0 : k0 < 256 := hb k0 (by simp)
  have hk55 : k55 < 256 := hb k55 (by simp)
  have hmidb : ∀ b ∈ mid, b < 256 := fun b hbm => hb b (by simp [hbm])
  have hM := bytes_to_int_lt_pow mid hmidb
  rw [hmid] at hM
  have hA := byte_and_252 k0 hk0
  have hB := byte_or_128 k55 hk55
  have hs : bytes_to_int ((k0 &&& 252) :: (mid ++ [k55 ||| 128, 0])) =
      (k0 &&& 252) + 256 * (bytes_to_int (mid ++ [k55 ||| 128]) +
        0 * 256 ^ (mid ++ [k55 ||| 128]).length) := by
    show (k0 &&& 252) + 256 * bytes_to_int (mid ++ [k55 ||| 128, 0]) = _
    rw [show mid ++ [k55 ||| 128, 0] = (mid ++ [k55 ||| 128]) ++ [0] from
      (List.append_assoc mid [k55 ||| 128] [0]).symm]
    rw [bytes_to_int_append_single]
  rw [hs, bytes_to_int_append_single, hmid]
  have hP : (256 : Nat) ^ 54 =
      11090678776483259438313656736572334813745748301503266300681918322458485231222502492159897624416558312389564843845614287315896631296 := by
    norm_num
  have h447 : (2 : Nat) ^ 447 =
      363419362147803445274661903944002267176820680343659030140745099590319644056698961663095525356881782780381260803133088966767300814307328 := by
    norm_num
  have h448 : (2 : Nat) ^ 448 =
      726838724295606890549323807888004534353641360687318060281490199180639288113397923326191050713763565560762521606266177933534601628614656 := by
    norm_num
  rw [hP] at hM ⊢
  rw [h447, h448]
  omega

/-- C4: on every full-length input, the pruned scalar is a multiple of the
curve's cofactor and has bit length exactly `bitlen(p)`: for ed25519,
`s % 8 = 0` and `2 ^ 254 ≤ s < 2 ^ 255`; for ed448, `s % 4 = 0` and
`2 ^ 447 ≤ s < 2 ^ 448`. -/
theorem keyPrune_cofactor_and_bitlength :
    (∀ key pruned : List Nat, key.length = 32 → (∀ b ∈ key, b < 256) →
      keyPrune curve_ed25519 key = .ok pruned →
      bytes_to_int pruned % 8 = 0 ∧
        2 ^ 254 ≤ bytes_to_int pruned ∧ bytes_to_int pruned < 2 ^ 255) ∧
    (∀ key pruned : List Nat, key.length = 57 → (∀ b ∈ key, b < 256) →
      keyPrune curve_ed448 key = .ok pruned →
      bytes_to_int pruned % 4 = 0 ∧
        2 ^ 447 ≤ bytes_to_int pruned ∧ bytes_to_int pruned < 2 ^ 448) :=
  ⟨keyPrune_bounds_ed25519, keyPrune_bounds_ed448⟩

/-- Witness for C4 at the all-zero seeds of both curves. -/
theorem keyPrune_cofactor_and_bitlength_witness :
    (bytes_to_int (List.replicate 31 0 ++ [64]) % 8 = 0 ∧
      2 ^ 254 ≤ bytes_to_int (List.replicate 31 0 ++ [64]) ∧
        bytes_to_int (List.replicate 31 0 ++ [64]) < 2 ^ 255) ∧
    (bytes_to_int (List.replicate 55 0 ++ [128, 0]) % 4 = 0 ∧
      2 ^ 447 ≤ bytes_to_int (List.replicate 55 0 ++ [128, 0]) ∧
        bytes_to_int (List.replicate 55 0 ++ [128, 0]) < 2 ^ 448) :=
  ⟨keyPrune_cofactor_and_bitlength.1 (List.replicate 32 0)
      (List.replicate 31 0 ++ [64]) (by decide) (by decide) rfl,
    keyPrune_cofactor_and_bitlength.2 (List.replicate 57 0)
      (List.replicate 55 0 ++ [128, 0]) (by decide) (by decide) rfl⟩

/-! ### C9: pruning is idempotent -/

theorem byte_and_248_idem : ∀ x, x < 256 → (x &&& 248) &&& 248 = x &&& 248 := by
  decide

theorem byte_last_idem_ed25519 :
    ∀ x, x < 256 → ((((x &&& 127) ||| 64) &&& 127) ||| 64) = (x &&& 127) ||| 64 := by
  decide

theorem byte_and_252_idem : ∀ x, x < 256 → (x &&& 252) &&& 252 = x &&& 252 := by
  decide

theorem byte_or_128_idem : ∀ x, x < 256 → (x ||| 128) ||| 128 = x ||| 128 := by
  decide

theorem keyPrune_idem_ed25519 (key p1 : List Nat)
    (hlen : key.length = 32) (hb : ∀ b ∈ key, b < 256)
    (hp : keyPrune curve_ed25519 key = .ok p1) :
    keyPrune curve_ed25519 p1 = .ok p1 := by
  obtain ⟨k0, rest, rfl, hrest⟩ := list_cons_of_length_succ key 31 hlen
  obtain ⟨mid, klast, rfl, hmid⟩ := list_concat_of_length_succ rest 30 hrest
  rw [keyPrune_shape_ed25519] at hp
  injection hp with hp
  subst hp
  have hk0 : k0 < 256 := hb k0 (by simp)
  have hkl : klast < 256 := hb klast (by simp)
  rw [keyPrune_shape_ed25519, byte_and_248_idem k0 hk0,
    byte_last_idem_ed25519 klast hkl]

theorem keyPrune_idem_ed448 (key p1 : List Nat)
    (hlen : key.length = 57) (hb : ∀ b ∈ key, b < 256)
    (hp : keyPrune curve_ed448 key = .ok p1) :
    keyPrune curve_ed448 p1 = .ok p1 := by
  obtain ⟨k0, rest, rfl, hrest⟩ := list_cons_of_length_succ key 56 hlen
  obtain ⟨rest2, k56, rfl, hrest2⟩ := list_concat_of_length_succ rest 55 hrest
  obtain ⟨mid, k55, rfl, hmid⟩ := list_concat_of_length_succ rest2 54 hrest2
  rw [List.append_assoc] at hp
  have hp2 : keyPrune curve_ed448 (k0 :: (mid ++ [k55, k56])) = .ok p1 := hp
  rw [keyPrune_shape_ed448] at hp2
  injection hp2 with hp2
  subst hp2
  have hk0 : k0 < 256 := hb k0 (by simp)
  have hk55 : k55 < 256 := hb k55 (by simp)
  rw [keyPrune_shape_ed448, byte_and_252_idem k0 hk0,
    byte_or_128_idem k55 hk55]

/-- C9: re-applying `_key_prune` to an already-pruned full-length byte string
returns it unchanged, for both curves. -/
theorem keyPrune_idempotent :
    (∀ key p1 : List Nat, key.length = 32 → (∀ b ∈ key, b < 256) →
      keyPrune curve_ed25519 key = .ok p1 → keyPrune curve_ed25519 p1 = .ok p1) ∧
    (∀ key p1 : List Nat, key.length = 57 → (∀ b ∈ key, b < 256) →
      keyPrune curve_ed448 key = .ok p1 → keyPrune curve_ed448 p1 = .ok p1) :=
  ⟨keyPrune_idem_ed25519, keyPrune_idem_ed448⟩

/-- Witness for C9 at the all-ones seeds of both curves. -/
theorem keyPrune_idempotent_witness :
    keyPrune curve_ed25519 (0 :: (List.replicate 30 1 ++ [65])) =
        .ok (0 :: (List.replicate 30 1 ++ [65])) ∧
    keyPrune curve_ed448 (0 :: (List.replicate 54 1 ++ [129, 0])) =
        .ok (0 :: (List.replicate 54 1 ++ [129, 0])) :=
  ⟨keyPrune_idempotent.1 (List.replicate 32 1) (0 :: (List.replicate 30 1 ++ [65]))
      (by decide) (by decide) rfl,
    keyPrune_idempotent.2 (List.replicate 57 1)
      (0 :: (List.replicate 54 1 ++ [129, 0])) (by decide) (by decide) rfl⟩

/-! ### C7: PublicKey equality -/

theorem mkPublicKey_ok_fields (g : EdGenerator) (bs : List Nat)
    (pt : Option Nat) (pk : PublicKey) (n : Nat)
    (h : mkPublicKey g bs pt = .ok (pk, n)) :
    pk.curve = g.curve ∧ pk.encoded = bs := by
  simp only [mkPublicKey] at h
  split at h
  · exact absurd h (by simp)
  · split at h
    · simp only [Except.ok.injEq, Prod.mk.injEq] at h
      obtain ⟨h1, -⟩ := h
      subst h1
      exact ⟨rfl, rfl⟩
    · split at h
      · exact absurd h (by simp)
      · simp only [Except.ok.injEq, Prod.mk.injEq] at h
        obtain ⟨h1, -⟩ := h
        subst h1
        exact ⟨rfl, rfl⟩

theorem curve_ed25519_ne_ed448 : curve_ed25519 ≠ curve_ed448 := by decide

/-- C7: `PublicKey.__eq__` holds iff the two keys have the same curve
descriptor and identical encoded bytes; the decoded points are never
consulted; consequently a key constructed under ed25519 is never equal to a
key constructed under ed448. -/
theorem publicKey_eq_iff_curve_and_encoded :
    (∀ a b : PublicKey,
      PublicKey.eq a b = true ↔ a.curve = b.curve ∧ a.encoded = b.encoded) ∧
    (∀ (a b : PublicKey) (p q : Nat),
      PublicKey.eq { a with point := p } { b with point := q } =
        PublicKey.eq a b) ∧
    (∀ (Ha Hb : List Nat → List Nat) (b1 b2 : List Nat) (k1 k2 : PublicKey)
      (n1 n2 : Nat),
      mkPublicKey (generator_ed25519 Ha) b1 none = .ok (k1, n1) →
      mkPublicKey (generator_ed448 Hb) b2 none = .ok (k2, n2) →
      PublicKey.eq k1 k2 = false ∧ PublicKey.eq k2 k1 = false) := by
  refine ⟨?_, ?_, ?_⟩
  · intro a b
    simp [PublicKey.eq, Bool.and_eq_true, beq_iff_eq]
  · intro a b p q
    rfl
  · intro Ha Hb b1 b2 k1 k2 n1 n2 h1 h2
    obtain ⟨hc1, -⟩ := mkPublicKey_ok_fields _ _ _ _ _ h1
    obtain ⟨hc2, -⟩ := mkPublicKey_ok_fields _ _ _ _ _ h2
    have hne : k1.curve ≠ k2.curve := by
      rw [hc1, hc2]
      exact curve_ed25519_ne_ed448
    have e1 : (k1.curve == k2.curve) = false := beq_eq_false_iff_ne.mpr hne
    have e2 : (k2.curve == k1.curve) = false :=
      beq_eq_false_iff_ne.mpr fun hh => hne hh.symm
    exact ⟨by simp [PublicKey.eq, e1], by simp [PublicKey.eq, e2]⟩

/-- Witness for C7: concretely constructed ed25519 and ed448 keys with the
generator encodings. -/
theorem publicKey_eq_iff_curve_and_encoded_witness :
    PublicKey.eq
        (PublicKey.mk (generator_ed25519 (fun _ => List.replicate 114 1))
          curve_ed25519 (int_to_bytes 1 32) 1 32)
        (PublicKey.mk (generator_ed448 (fun _ => List.replicate 114 1))
          curve_ed448 (int_to_bytes 1 57) 1 57) = false ∧
      PublicKey.eq
        (PublicKey.mk (generator_ed448 (fun _ => List.replicate 114 1))
          curve_ed448 (int_to_bytes 1 57) 1 57)
        (PublicKey.mk (generator_ed25519 (fun _ => List.replicate 114 1))
          curve_ed25519 (int_to_bytes 1 32) 1 32) = false :=
  publicKey_eq_iff_curve_and_encoded.2.2
    (fun _ => List.replicate 114 1) (fun _ => List.replicate 114 1)
    (int_to_bytes 1 32) (int_to_bytes 1 57) _ _ 1 1 rfl rfl

/-! ### C6: length validation at the public interface -/

theorem keyPrune_ok (c : CurveEdTw) (key : List Nat) (hc : c.h = 4 ∨ c.h = 8) :
    ∃ out, keyPrune c key = .ok out := by
  unfold keyPrune
  rcases hc with hc | hc <;> rw [hc] <;> norm_num <;> split <;> exact ⟨_, rfl⟩

theorem mkPrivateKey_length_error (g : EdGenerator) (seed : List Nat)
    (h : seed.length ≠ g.curve.baselen) :
    mkPrivateKey g seed = .error (.invalidKeyLength
      ("Incorrect size of private key, expected: " ++
        toString g.curve.baselen ++ " bytes")) := by
  simp only [mkPrivateKey]
  rw [if_pos h]

theorem mkPrivateKey_ok_of_length (g : EdGenerator) (seed : List Nat)
    (hc : g.curve.h = 4 ∨ g.curve.h = 8)
    (h : seed.length = g.curve.baselen) :
    ∃ k, mkPrivateKey g seed = .ok k := by
  simp only [mkPrivateKey]
  rw [if_neg (by simp [h])]
  obtain ⟨out, ho⟩ := keyPrune_ok g.curve
    ((g.hash_func seed).take g.curve.baselen) hc
  rw [ho]
  exact ⟨_, rfl⟩

theorem mkPublicKey_length_error (g : EdGenerator) (bs : List Nat)
    (pt : Option Nat) (h : bs.length ≠ g.curve.baselen) :
    mkPublicKey g bs pt = .error (.invalidKeyLength
      ("Incorrect size of the public key, expected: " ++
        toString g.curve.baselen ++ " bytes")) := by
  simp only [mkPublicKey]
  rw [if_pos h]

theorem mkPublicKey_not_length_error (g : EdGenerator) (bs : List Nat)
    (pt : Option Nat) (h : bs.length = g.curve.baselen) (m : String) :
    mkPublicKey g bs pt ≠ .error (.invalidKeyLength m) := by
  simp only [mkPublicKey]
  rw [if_neg (by simp [h])]
  cases pt with
  | some p => simp
  | none => cases hfb : point_from_bytes g bs <;> simp

theorem verify_length_error_iff (pk : PublicKey) (data sig : List Nat) :
    (∃ m, PublicKey.verify pk data sig = .error (.invalidSignatureLength m)) ↔
      sig.length ≠ 2 * pk.baselen := by
  constructor
  · rintro ⟨m, hm⟩
    intro h
    simp only [PublicKey.verify] at hm
    rw [if_neg (by simp [h])] at hm
    split at hm
    · exact absurd hm (by simp)
    · split at hm
      · exact absurd hm (by simp)
      · split at hm
        · split at hm <;> exact absurd hm (by simp)
        · split at hm <;> exact absurd hm (by simp)
  · intro h
    refine ⟨"Invalid signature length, expected: " ++ toString (2 * pk.baselen)
      ++ " bytes", ?_⟩
    simp only [PublicKey.verify]
    rw [if_pos h]

/-- C6: construction of a `PrivateKey` or `PublicKey` gets past the length
check iff the input has exactly `baselen` bytes (32 for ed25519, 57 for
ed448), failing with the key-length `ValueError` otherwise; and `verify`
fails with the signature-length `ValueError` iff the signature is not
exactly `2 * baselen` bytes. -/
theorem interface_length_validation :
    (curve_ed25519.baselen = 32 ∧ curve_ed448.baselen = 57) ∧
    (∀ (H : List Nat → List Nat) (seed : List Nat),
      (seed.length ≠ 32 → ∃ m, mkPrivateKey (generator_ed25519 H) seed =
        .error (.invalidKeyLength m)) ∧
      (seed.length = 32 → ∃ k, mkPrivateKey (generator_ed25519 H) seed = .ok k)) ∧
    (∀ (H : List Nat → List Nat) (seed : List Nat),
      (seed.length ≠ 57 → ∃ m, mkPrivateKey (generator_ed448 H) seed =
        .error (.invalidKeyLength m)) ∧
      (seed.length = 57 → ∃ k, mkPrivateKey (generator_ed448 H) seed = .ok k)) ∧
    (∀ (H : List Nat → List Nat) (bs : List Nat),
      (bs.length ≠ 32 → ∃ m, mkPublicKey (generator_ed25519 H) bs none =
        .error (.invalidKeyLength m)) ∧
      (bs.length = 32 → ∀ m, mkPublicKey (generator_ed25519 H) bs none ≠
        .error (.invalidKeyLength m))) ∧
    (∀ (H : List Nat → List Nat) (bs : List Nat),
      (bs.length ≠ 57 → ∃ m, mkPublicKey (generator_ed448 H) bs none =
        .error (.invalidKeyLength m)) ∧
      (bs.length = 57 → ∀ m, mkPublicKey (generator_ed448 H) bs none ≠
        .error (.invalidKeyLength m))) ∧
    (∀ (pk : PublicKey) (data sig : List Nat),
      (∃ m, PublicKey.verify pk data sig = .error (.invalidSignatureLength m)) ↔
        sig.length ≠ 2 * pk.baselen) := by
  refine ⟨⟨baselen_ed25519, baselen_ed448⟩, ?_, ?_, ?_, ?_,
    verify_length_error_iff⟩
  · intro H seed
    constructor
    · intro h
      exact ⟨_, mkPrivateKey_length_error (generator_ed25519 H) seed
        (by rw [show (generator_ed25519 H).curve.baselen = 32 from
          baselen_ed25519]; exact h)⟩
    · intro h
      exact mkPrivateKey_ok_of_length (generator_ed25519 H) seed (Or.inr rfl)
        (by rw [show (generator_ed25519 H).curve.baselen = 32 from
          baselen_ed25519]; exact h)
  · intro H seed
    constructor
    · intro h
      exact ⟨_, mkPrivateKey_length_error (generator_ed448 H) seed
        (by rw [show (generator_ed448 H).curve.baselen = 57 from
          baselen_ed448]; exact h)⟩
    · intro h
      exact mkPrivateKey_ok_of_length (generator_ed448 H) seed (Or.inl rfl)
        (by rw [show (generator_ed448 H).curve.baselen = 57 from
          baselen_ed448]; exact h)
  · intro H bs
    constructor
    · intro h
      exact ⟨_, mkPublicKey_length_error (generator_ed25519 H) bs none
        (by rw [show (generator_ed25519 H).curve.baselen = 32 from
          baselen_ed25519]; exact h)⟩
    · intro h m
      exact mkPublicKey_not_length_error (generator_ed25519 H) bs none
        (by rw [show (generator_ed25519 H).curve.baselen = 32 from
          baselen_ed25519]; exact h) m
  · intro H bs
    constructor
    · intro h
      exact ⟨_, mkPublicKey_length_error (generator_ed448 H) bs none
        (by rw [show (generator_ed448 H).curve.baselen = 57 from
          baselen_ed448]; exact h)⟩
    · intro h m
      exact mkPublicKey_not_length_error (generator_ed448 H) bs none
        (by rw [show (generator_ed448 H).curve.baselen = 57 from
          baselen_ed448]; exact h) m

/-- Witness for C6 at concrete lengths `baselen ± 1` and `baselen`. -/
theorem interface_length_validation_witness :
    (∃ m, mkPrivateKey (generator_ed25519 (fun _ => List.replicate 114 1))
      (List.replicate 31 0) = .error (.invalidKeyLength m)) ∧
    (∃ k, mkPrivateKey (generator_ed25519 (fun _ => List.replicate 114 1))
      (List.replicate 32 0) = .ok k) ∧
    (∃ m, mkPrivateKey (generator_ed448 (fun _ => List.replicate 114 1))
      (List.replicate 56 0) = .error (.invalidKeyLength m)) ∧
    (∃ k, mkPrivateKey (generator_ed448 (fun _ => List.replicate 114 1))
      (List.replicate 57 0) = .ok k) ∧
    (∃ m, mkPublicKey (generator_ed25519 (fun _ => List.replicate 114 1))
      (List.replicate 33 0) none = .error (.invalidKeyLength m)) ∧
    (mkPublicKey (generator_ed25519 (fun _ => List.replicate 114 1))
      (int_to_bytes 1 32) none ≠ .error (.invalidKeyLength "x")) ∧
    (∃ m, mkPublicKey (generator_ed448 (fun _ => List.replicate 114 1))
      (List.replicate 58 0) none = .error (.invalidKeyLength m)) ∧
    (mkPublicKey (generator_ed448 (fun _ => List.replicate 114 1))
      (int_to_bytes 1 57) none ≠ .error (.invalidKeyLength "x")) ∧
    ((∃ m, PublicKey.verify
        (PublicKey.mk (generator_ed25519 (fun _ => List.replicate 114 1))
          curve_ed25519 (int_to_bytes 1 32) 1 32) [] [] =
        .error (.invalidSignatureLength m)) ↔ ([] : List Nat).length ≠ 2 * 32) :=
  ⟨(interface_length_validation.2.1 (fun _ => List.replicate 114 1)
      (List.replicate 31 0)).1 (by decide),
    (interface_length_validation.2.1 (fun _ => List.replicate 114 1)
      (List.replicate 32 0)).2 (by decide),
    (interface_length_validation.2.2.1 (fun _ => List.replicate 114 1)
      (List.replicate 56 0)).1 (by decide),
    (interface_length_validation.2.2.1 (fun _ => List.replicate 114 1)
      (List.replicate 57 0)).2 (by decide),
    (interface_length_validation.2.2.2.1 (fun _ => List.replicate 114 1)
      (List.replicate 33 0)).1 (by decide),
    (interface_length_validation.2.2.2.1 (fun _ => List.replicate 114 1)
      (int_to_bytes 1 32)).2 (by decide) "x",
    (interface_length_validation.2.2.2.2.1 (fun _ => List.replicate 114 1)
      (List.replicate 58 0)).1 (by decide),
    (interface_length_validation.2.2.2.2.1 (fun _ => List.replicate 114 1)
      (int_to_bytes 1 57)).2 (by decide) "x",
    interface_length_validation.2.2.2.2.2
      (PublicKey.mk (generator_ed25519 (fun _ => List.replicate 114 1))
        curve_ed25519 (int_to_bytes 1 32) 1 32) [] []⟩

/-! ### C10: verify returns exactly True on success -/

theorem verify_ok_imp_true (pk : PublicKey) (data sig : List Nat) (r : Bool)
    (h : PublicKey.verify pk data sig = .ok r) : r = true := by
  simp only [PublicKey.verify] at h
  split at h
  · exact absurd h (by simp)
  · split at h
    · exact absurd h (by simp)
    · split at h
      · exact absurd h (by simp)
      · split at h
        · split at h
          · exact absurd h (by simp)
          · exact (Except.ok.inj h).symm
        · split at h
          · exact absurd h (by simp)
          · exact (Except.ok.inj h).symm

/-- C10: whenever `verify` returns, it returns the boolean `True`; every other
path raises an exception (the translation returns `Except.error`).  The
source method contains no assignment to `self`, which the translation
reflects by `verify` being a pure function of the `PublicKey` value: no field
of the key is modified on any path. -/
theorem verify_true_on_success_and_raises_otherwise :
    (∀ (pk : PublicKey) (data sig : List Nat) (r : Bool),
      PublicKey.verify pk data sig = .ok r → r = true) ∧
    (∀ (pk : PublicKey) (data sig : List Nat),
      PublicKey.verify pk data sig = .ok true ∨
        ∃ e, PublicKey.verify pk data sig = .error e) := by
  refine ⟨verify_ok_imp_true, ?_⟩
  intro pk data sig
  cases h : PublicKey.verify pk data sig with
  | error e => exact Or.inr ⟨e, rfl⟩
  | ok b =>
      have hb := verify_ok_imp_true pk data sig b h
      subst hb
      exact Or.inl rfl

/-- Witness for C10: a concrete signature accepted by `verify`. -/
theorem verify_true_on_success_witness :
    PublicKey.verify
        (PublicKey.mk (generator_ed25519 (fun _ => List.replicate 114 1))
          curve_ed25519 (int_to_bytes 1 32) 1 32) []
        (int_to_bytes 0 32 ++
          int_to_bytes (bytes_to_int (List.replicate 114 1) % order_ed25519) 32) =
      .ok true ∧ true = true :=
  ⟨rfl,
    verify_true_on_success_and_raises_otherwise.1
      (PublicKey.mk (generator_ed25519 (fun _ => List.replicate 114 1))
        curve_ed25519 (int_to_bytes 1 32) 1 32) []
      (int_to_bytes 0 32 ++
        int_to_bytes (bytes_to_int (List.replicate 114 1) % order_ed25519) 32)
      true rfl⟩

/-! ### C2: sign is deterministic -/

/-- C2: `sign` consumes no randomness — the source computes the nonce `r`
deterministically from the stored hash prefix and the message, which the
translation reflects by `sign` being a pure function.  Two `PrivateKey`s
constructed from the same `(generator, seed)` produce byte-identical
signatures on the same message. -/
theorem sign_deterministic (g : EdGenerator) (seed data : List Nat)
    (k1 k2 : PrivateKey) (h1 : mkPrivateKey g seed = .ok k1)
    (h2 : mkPrivateKey g seed = .ok k2) :
    PrivateKey.sign k1 data = PrivateKey.sign k2 data := by
  rw [h1] at h2
  injection h2 with h2
  rw [h2]

/-- Witness for C2 at a concrete ed25519 key. -/
theorem sign_deterministic_witness :
    PrivateKey.sign
        (PrivateKey.mk (generator_ed25519 (fun _ => List.replicate 114 1))
          curve_ed25519 32 (List.replicate 32 1) (List.replicate 114 1) none
          (bytes_to_int (0 :: (List.replicate 30 1 ++ [65])))) [] =
      PrivateKey.sign
        (PrivateKey.mk (generator_ed25519 (fun _ => List.replicate 114 1))
          curve_ed25519 32 (List.replicate 32 1) (List.replicate 114 1) none
          (bytes_to_int (0 :: (List.replicate 30 1 ++ [65])))) [] :=
  sign_deterministic (generator_ed25519 (fun _ => List.replicate 114 1))
    (List.replicate 32 1) []
    (PrivateKey.mk (generator_ed25519 (fun _ => List.replicate 114 1))
      curve_ed25519 32 (List.replicate 32 1) (List.replicate 114 1) none
      (bytes_to_int (0 :: (List.replicate 30 1 ++ [65]))))
    (PrivateKey.mk (generator_ed25519 (fun _ => List.replicate 114 1))
      curve_ed25519 32 (List.replicate 32 1) (List.replicate 114 1) none
      (bytes_to_int (0 :: (List.replicate 30 1 ++ [65]))))
    rfl rfl

/-! ### C8: public_key() is memoized -/

/-- C8: on a freshly constructed key (empty memo cell), `public_key()`
performs exactly one engine `scalar_mul` and zero engine decodes (the
`PublicKey` is built from the encoding together with the already-computed
point), stores the result in the memo cell, and every later call performs no
engine operation at all and returns the very same `PublicKey` (in particular
equal to itself under `__eq__`); no other field of the `PrivateKey`
changes. -/
theorem public_key_memoized (k : PrivateKey)
    (hc : k.public_key_cache = none) :
    ∃ (pk : PublicKey) (k1 : PrivateKey),
      k.publicKey = .ok (pk, k1, 1, 0) ∧
      k1.publicKey = .ok (pk, k1, 0, 0) ∧
      PublicKey.eq pk pk = true ∧
      k1 = { k with public_key_cache := some pk } ∧
      pk.point = scalar_mul k.generator generator_point k.s ∧
      pk.encoded = point_to_bytes k.generator pk.point ∧
      pk.generator = k.generator ∧
      k1.generator = k.generator ∧ k1.curve = k.curve ∧
      k1.baselen = k.baselen ∧ k1.private_key = k.private_key ∧
      k1.h = k.h ∧ k1.s = k.s := by
  refine ⟨PublicKey.mk k.generator k.generator.curve
      (point_to_bytes k.generator (scalar_mul k.generator generator_point k.s))
      (scalar_mul k.generator generator_point k.s) k.generator.curve.baselen,
    { k with public_key_cache := some (PublicKey.mk k.generator
        k.generator.curve
        (point_to_bytes k.generator
          (scalar_mul k.generator generator_point k.s))
        (scalar_mul k.generator generator_point k.s)
        k.generator.curve.baselen) },
    ?_, rfl, by simp [PublicKey.eq], rfl, rfl, rfl, rfl, rfl, rfl, rfl, rfl,
    rfl, rfl⟩
  simp only [PrivateKey.publicKey, hc]
  have hmk : mkPublicKey k.generator
      (point_to_bytes k.generator (scalar_mul k.generator generator_point k.s))
      (some (scalar_mul k.generator generator_point k.s)) =
      .ok (PublicKey.mk k.generator k.generator.curve
        (point_to_bytes k.generator
          (scalar_mul k.generator generator_point k.s))
        (scalar_mul k.generator generator_point k.s)
        k.generator.curve.baselen, 0) := by
    simp only [mkPublicKey]
    rw [if_neg (by simp [point_to_bytes, length_int_to_bytes])]
  rw [hmk]

/-- Witness for C8 at a concrete ed25519 key. -/
theorem public_key_memoized_witness :
    ∃ (pk : PublicKey) (k1 : PrivateKey),
      PrivateKey.publicKey
          (PrivateKey.mk (generator_ed25519 (fun _ => List.replicate 114 1))
            curve_ed25519 32 (List.replicate 32 1) (List.replicate 114 1) none
            (bytes_to_int (0 :: (List.replicate 30 1 ++ [65])))) =
        .ok (pk, k1, 1, 0) ∧
      k1.publicKey = .ok (pk, k1, 0, 0) ∧
      PublicKey.eq pk pk = true ∧
      k1 = { PrivateKey.mk (generator_ed25519 (fun _ => List.replicate 114 1))
          curve_ed25519 32 (List.replicate 32 1) (List.replicate 114 1) none
          (bytes_to_int (0 :: (List.replicate 30 1 ++ [65]))) with
        public_key_cache := some pk } ∧
      pk.point = scalar_mul
        (generator_ed25519 (fun _ => List.replicate 114 1)) generator_point
        (bytes_to_int (0 :: (List.replicate 30 1 ++ [65]))) ∧
      pk.encoded = point_to_bytes
        (generator_ed25519 (fun _ => List.replicate 114 1)) pk.point ∧
      pk.generator = generator_ed25519 (fun _ => List.replicate 114 1) ∧
      k1.generator = generator_ed25519 (fun _ => List.replicate 114 1) ∧
      k1.curve = curve_ed25519 ∧ k1.baselen = 32 ∧
      k1.private_key = List.replicate 32 1 ∧
      k1.h = List.replicate 114 1 ∧
      k1.s = bytes_to_int (0 :: (List.replicate 30 1 ++ [65])) :=
  public_key_memoized
    (PrivateKey.mk (generator_ed25519 (fun _ => List.replicate 114 1))
      curve_ed25519 32 (List.replicate 32 1) (List.replicate 114 1) none
      (bytes_to_int (0 :: (List.replicate 30 1 ++ [65])))) rfl

/-! ### C3: the S-range check and its position in verify -/

/-- Counterexample to C3 as stated: a correctly-sized signature whose `S`
half decodes to exactly the group order but whose `R` half is not a valid
point encoding is rejected by the engine's decode — which the source runs
first (line 134) — and not by the `S >= order` check (line 138), so the
failure is not `InvalidSignatureValue`. -/
theorem s_range_check_after_decode_cex :
    order_ed25519 ≤ bytes_to_int ((List.replicate 32 255 ++
      int_to_bytes order_ed25519 32).drop 32) ∧
    (List.replicate 32 255 ++ int_to_bytes order_ed25519 32).length = 2 * 32 ∧
    PublicKey.verify
        (PublicKey.mk (generator_ed25519 (fun _ => List.replicate 114 1))
          curve_ed25519 (int_to_bytes 1 32) 1 32) []
        (List.replicate 32 255 ++ int_to_bytes order_ed25519 32) =
      .error .invalidEncodedPoint ∧
    EdError.invalidEncodedPoint ≠ EdError.invalidSignatureValue :=
  ⟨by decide, by decide, rfl, by decide⟩

/-- C3 (amended): for a correctly-sized signature whose `R` half decodes
successfully, a decoded `S` with `S ≥ order` is rejected with the
`S >= order` check's `ValueError` — before the hash `k` is computed and
before the verification equation — while `S = order − 1` is never rejected
by that check.  (As stated the claim is false: the source decodes `R_bytes`
before the range check, so a malformed `R` preempts it.) -/
theorem verify_s_range_check :
    (∀ (pk : PublicKey) (data sig : List Nat) (R : Nat),
      sig.length = 2 * pk.baselen →
      point_from_bytes pk.generator (sig.take pk.baselen) = some R →
      pk.generator.order ≤ bytes_to_int (sig.drop pk.baselen) →
      PublicKey.verify pk data sig = .error .invalidSignatureValue) ∧
    (∀ (pk : PublicKey) (data sig : List Nat) (R : Nat),
      sig.length = 2 * pk.baselen →
      point_from_bytes pk.generator (sig.take pk.baselen) = some R →
      bytes_to_int (sig.drop pk.baselen) + 1 = pk.generator.order →
      PublicKey.verify pk data sig ≠ .error .invalidSignatureValue) := by
  constructor
  · intro pk data sig R hlen hdec hS
    simp only [PublicKey.verify]
    rw [if_neg (by simp [hlen]), hdec]
    simp only
    rw [if_pos hS]
  · intro pk data sig R hlen hdec hS
    simp only [PublicKey.verify]
    rw [if_neg (by simp [hlen]), hdec]
    simp only
    rw [if_neg (by omega)]
    split <;> split <;> simp

/-- Witness for the amended C3 at `S = order` and `S = order − 1`. -/
theorem verify_s_range_check_witness :
    PublicKey.verify
        (PublicKey.mk (generator_ed25519 (fun _ => List.replicate 114 1))
          curve_ed25519 (int_to_bytes 1 32) 1 32) []
        (int_to_bytes 0 32 ++ int_to_bytes order_ed25519 32) =
      .error .invalidSignatureValue ∧
    PublicKey.verify
        (PublicKey.mk (generator_ed25519 (fun _ => List.replicate 114 1))
          curve_ed25519 (int_to_bytes 1 32) 1 32) []
        (int_to_bytes 0 32 ++ int_to_bytes (order_ed25519 - 1) 32) ≠
      .error .invalidSignatureValue :=
  ⟨verify_s_range_check.1
      (PublicKey.mk (generator_ed25519 (fun _ => List.replicate 114 1))
        curve_ed25519 (int_to_bytes 1 32) 1 32) []
      (int_to_bytes 0 32 ++ int_to_bytes order_ed25519 32) 0
      (by decide) rfl (by decide),
    verify_s_range_check.2
      (PublicKey.mk (generator_ed25519 (fun _ => List.replicate 114 1))
        curve_ed25519 (int_to_bytes 1 32) 1 32) []
      (int_to_bytes 0 32 ++ int_to_bytes (order_ed25519 - 1) 32) 0
      (by decide) rfl (by decide)⟩

/-! ### C5: the two value-level failures and their observable exceptions -/

/-- Counterexample to C5 as stated: a signature failing the `S >= order`
check and a well-formed signature failing the verification equation are
rejected at different source lines, but both raise exactly
`ValueError("Invalid signature")` — the caller observes a single error kind,
not two distinct ones. -/
theorem verify_error_kinds_indistinguishable_cex :
    PublicKey.verify
        (PublicKey.mk (generator_ed25519 (fun _ => List.replicate 114 1))
          curve_ed25519 (int_to_bytes 1 32) 1 32) []
        (int_to_bytes 0 32 ++ int_to_bytes order_ed25519 32) =
      .error .invalidSignatureValue ∧
    PublicKey.verify
        (PublicKey.mk (generator_ed25519 (fun _ => List.replicate 114 1))
          curve_ed25519 (int_to_bytes 1 32) 1 32) []
        (int_to_bytes 0 32 ++ int_to_bytes 1 32) =
      .error .signatureVerificationFailed ∧
    pyException .invalidSignatureValue =
      pyException .signatureVerificationFailed :=
  ⟨rfl, rfl, rfl⟩

/-- C5 (amended): `verify` fails at two distinct raise sites for the two
value-level conditions — `S` outside `[0, order)` at the range check, a
false verification equation at the equation check — but both sites raise the
identical Python exception `ValueError("Invalid signature")`, so the two
failures are not distinguishable as error kinds by a caller. -/
theorem verify_value_failures_same_exception :
    (∀ (pk : PublicKey) (data sig : List Nat) (R : Nat),
      sig.length = 2 * pk.baselen →
      point_from_bytes pk.generator (sig.take pk.baselen) = some R →
      pk.generator.order ≤ bytes_to_int (sig.drop pk.baselen) →
      PublicKey.verify pk data sig = .error .invalidSignatureValue) ∧
    (∀ (pk : PublicKey) (data sig : List Nat) (R : Nat),
      sig.length = 2 * pk.baselen →
      point_from_bytes pk.generator (sig.take pk.baselen) = some R →
      bytes_to_int (sig.drop pk.baselen) < pk.generator.order →
      scalar_mul pk.generator generator_point
          (bytes_to_int (sig.drop pk.baselen)) ≠
        point_add pk.generator (scalar_mul pk.generator pk.point
          (bytes_to_int (pk.generator.hash_func
            ((if pk.curve = curve_ed448 then dom448 else []) ++
              point_to_bytes pk.generator R ++ pk.encoded ++ data)))) R →
      PublicKey.verify pk data sig = .error .signatureVerificationFailed) ∧
    pyException .invalidSignatureValue =
      pyException .signatureVerificationFailed ∧
    pyException .invalidSignatureValue = ("ValueError", "Invalid signature") ∧
    EdError.invalidSignatureValue ≠ EdError.signatureVerificationFailed := by
  refine ⟨?_, ?_, rfl, rfl, by decide⟩
  · intro pk data sig R hlen hdec hS
    simp only [PublicKey.verify]
    rw [if_neg (by simp [hlen]), hdec]
    simp only
    rw [if_pos hS]
  · intro pk data sig R hlen hdec hS heq
    simp only [PublicKey.verify]
    rw [if_neg (by simp [hlen]), hdec]
    simp only
    rw [if_neg (not_le.mpr hS), if_pos heq]

/-- Witness for the amended C5 on the ed448 curve. -/
theorem verify_value_failures_same_exception_witness :
    PublicKey.verify
        (PublicKey.mk (generator_ed448 (fun _ => List.replicate 114 1))
          curve_ed448 (int_to_bytes 1 57) 1 57) []
        (int_to_bytes 0 57 ++ int_to_bytes order_ed448 57) =
      .error .invalidSignatureValue ∧
    PublicKey.verify
        (PublicKey.mk (generator_ed448 (fun _ => List.replicate 114 1))
          curve_ed448 (int_to_bytes 1 57) 1 57) []
        (int_to_bytes 0 57 ++ int_to_bytes 1 57) =
      .error .signatureVerificationFailed :=
  ⟨verify_value_failures_same_exception.1
      (PublicKey.mk (generator_ed448 (fun _ => List.replicate 114 1))
        curve_ed448 (int_to_bytes 1 57) 1 57) []
      (int_to_bytes 0 57 ++ int_to_bytes order_ed448 57) 0
      (by decide) rfl (by decide),
    verify_value_failures_same_exception.2.1
      (PublicKey.mk (generator_ed448 (fun _ => List.replicate 114 1))
        curve_ed448 (int_to_bytes 1 57) 1 57) []
      (int_to_bytes 0 57 ++ int_to_bytes 1 57) 0
      (by decide) rfl (by decide) (by decide)⟩

/-! ### C1: verify accepts every signature produced by sign -/

theorem take_append_left (xs ys : List Nat) (n : Nat) (h : xs.length = n) :
    (xs ++ ys).take n = xs := by
  subst h
  exact List.take_left xs ys

theorem drop_append_left (xs ys : List Nat) (n : Nat) (h : xs.length = n) :
    (xs ++ ys).drop n = ys := by
  subst h
  exact List.drop_left xs ys

theorem verify_ok_of_eq (pk : PublicKey) (data sig : List Nat) (R : Nat)
    (hlen : sig.length = 2 * pk.baselen)
    (hdec : point_from_bytes pk.generator (sig.take pk.baselen) = some R)
    (hS : bytes_to_int (sig.drop pk.baselen) < pk.generator.order)
    (heq : scalar_mul pk.generator generator_point
        (bytes_to_int (sig.drop pk.baselen)) =
      point_add pk.generator (scalar_mul pk.generator pk.point
        (bytes_to_int (pk.generator.hash_func
          ((if pk.curve = curve_ed448 then dom448 else []) ++
            point_to_bytes pk.generator R ++ pk.encoded ++ data)))) R) :
    PublicKey.verify pk data sig = .ok true := by
  simp only [PublicKey.verify]
  rw [if_neg (by simp [hlen]), hdec]
  simp only
  rw [if_neg (not_le.mpr hS), if_neg (not_ne_iff.mpr heq)]

theorem eddsa_core_identity (n r s kh : Nat) :
    ((r + kh % n * s) % n) % n = (s % n * kh % n + r % n) % n := by
  have h1 : r + kh % n * s ≡ s * kh + r [MOD n] := by
    have h := Nat.ModEq.add_left r (Nat.ModEq.mul_right s (Nat.mod_modEq kh n))
    rwa [show r + kh * s = s * kh + r by ring] at h
  have h2 : s % n * kh % n + r % n ≡ s * kh + r [MOD n] := by
    have hm : s % n * kh % n ≡ s * kh [MOD n] :=
      (Nat.mod_modEq _ n).trans (Nat.ModEq.mul_right kh (Nat.mod_modEq s n))
    exact hm.add (Nat.mod_modEq r n)
  have h0 : ((r + kh % n * s) % n) % n = (r + kh % n * s) % n :=
    Nat.mod_modEq _ n
  rw [h0]
  exact h1.trans h2.symm

/-- The kernel of C1: a `PublicKey` holding `generator · s` accepts the
signature `(R_bytes, S)` built by `sign`'s formula, for any nonce hash value
`r` and any expanded scalar `s`. -/
theorem verify_accepts_general (g : EdGenerator) (data : List Nat)
    (r s : Nat) (hord : 0 < g.order)
    (hle : g.order ≤ 256 ^ g.curve.baselen) :
    PublicKey.verify
      (⟨g, g.curve, int_to_bytes (s % g.order) g.curve.baselen,
        s % g.order, g.curve.baselen⟩ : PublicKey) data
      (int_to_bytes (r % g.order) g.curve.baselen ++
        int_to_bytes ((r + bytes_to_int (g.hash_func
            ((if g.curve = curve_ed448 then dom448 else []) ++
              int_to_bytes (r % g.order) g.curve.baselen ++
              int_to_bytes (s % g.order) g.curve.baselen ++ data)) % g.order
            * s) % g.order)
          g.curve.baselen) = .ok true := by
  refine verify_ok_of_eq _ _ _ (r % g.order) ?_ ?_ ?_ ?_
  · simp only [List.length_append, length_int_to_bytes]
    omega
  · rw [take_append_left _ _ _ (length_int_to_bytes _ _)]
    simp only [point_from_bytes, bytes_to_int_int_to_bytes]
    rw [Nat.mod_eq_of_lt (lt_of_lt_of_le (Nat.mod_lt r hord) hle)]
    rw [if_pos (Nat.mod_lt r hord)]
  · rw [drop_append_left _ _ _ (length_int_to_bytes _ _)]
    simp only [bytes_to_int_int_to_bytes]
    rw [Nat.mod_eq_of_lt (lt_of_lt_of_le (Nat.mod_lt _ hord) hle)]
    exact Nat.mod_lt _ hord
  · rw [drop_append_left _ _ _ (length_int_to_bytes _ _)]
    simp only [scalar_mul, point_add, generator_point, point_to_bytes,
      bytes_to_int_int_to_bytes, one_mul]
    rw [Nat.mod_eq_of_lt (lt_of_lt_of_le (Nat.mod_lt _ hord) hle)]
    exact eddsa_core_identity g.order r s _

theorem sign_then_verify (g : EdGenerator) (seed data : List Nat)
    (hlen : seed.length = g.curve.baselen)
    (hco : g.curve.h = 4 ∨ g.curve.h = 8)
    (hord : 0 < g.order) (hle : g.order ≤ 256 ^ g.curve.baselen)
    (k : PrivateKey) (sig : List Nat) (k1 : PrivateKey)
    (pk : PublicKey) (k2 : PrivateKey) (c d : Nat)
    (h1 : mkPrivateKey g seed = .ok k)
    (h2 : PrivateKey.sign k data = .ok (sig, k1))
    (h3 : PrivateKey.publicKey k = .ok (pk, k2, c, d)) :
    PublicKey.verify pk data sig = .ok true := by
  simp only [mkPrivateKey] at h1
  rw [if_neg (by simp [hlen])] at h1
  obtain ⟨a, ha⟩ :=
    keyPrune_ok g.curve ((g.hash_func seed).take g.curve.baselen) hco
  rw [ha] at h1
  injection h1 with h1
  subst h1
  have hpub : PrivateKey.publicKey
      (⟨g, g.curve, g.curve.baselen, seed, g.hash_func seed, none,
        bytes_to_int a⟩ : PrivateKey) =
      .ok (⟨g, g.curve,
          int_to_bytes (bytes_to_int a % g.order) g.curve.baselen,
          bytes_to_int a % g.order, g.curve.baselen⟩,
        ⟨g, g.curve, g.curve.baselen, seed, g.hash_func seed,
          some ⟨g, g.curve,
            int_to_bytes (bytes_to_int a % g.order) g.curve.baselen,
            bytes_to_int a % g.order, g.curve.baselen⟩,
          bytes_to_int a⟩, 1, 0) := by
    simp only [PrivateKey.publicKey, mkPublicKey, scalar_mul, generator_point,
      point_to_bytes, one_mul]
    rw [if_neg (by simp [length_int_to_bytes])]
  simp only [PrivateKey.sign] at h2
  rw [hpub] at h2
  simp only [scalar_mul, generator_point, point_to_bytes, one_mul,
    Except.ok.injEq, Prod.mk.injEq] at h2
  obtain ⟨hsig, -⟩ := h2
  rw [hpub] at h3
  simp only [Except.ok.injEq, Prod.mk.injEq] at h3
  obtain ⟨hpk, -⟩ := h3
  subst hsig
  subst hpk
  exact verify_accepts_general g data
    (bytes_to_int (g.hash_func
      ((if g.curve = curve_ed448 then dom448 else []) ++
        List.drop g.curve.baselen (g.hash_func seed) ++ data)))
    (bytes_to_int a) hord hle

theorem gen25519_curve (H : List Nat → List Nat) :
    (generator_ed25519 H).curve = curve_ed25519 := rfl

theorem gen25519_order (H : List Nat → List Nat) :
    (generator_ed25519 H).order = order_ed25519 := rfl

theorem gen448_curve (H : List Nat → List Nat) :
    (generator_ed448 H).curve = curve_ed448 := rfl

theorem gen448_order (H : List Nat → List Nat) :
    (generator_ed448 H).order = order_ed448 := rfl

/-- C1: for every valid seed (of the correct `baselen`) and every message —
the empty message included — verifying with the derived public key accepts
the signature: `PrivateKey(g, seed).public_key().verify(msg,
PrivateKey(g, seed).sign(msg))` returns success, for both `curve_ed25519`
and `curve_ed448`, for every deterministic hash primitive. -/
theorem sign_verify_roundtrip :
    (∀ (H : List Nat → List Nat) (seed data : List Nat) (k : PrivateKey)
      (sig : List Nat) (k1 : PrivateKey) (pk : PublicKey) (k2 : PrivateKey)
      (c d : Nat),
      seed.length = 32 →
      mkPrivateKey (generator_ed25519 H) seed = .ok k →
      PrivateKey.sign k data = .ok (sig, k1) →
      PrivateKey.publicKey k = .ok (pk, k2, c, d) →
      PublicKey.verify pk data sig = .ok true) ∧
    (∀ (H : List Nat → List Nat) (seed data : List Nat) (k : PrivateKey)
      (sig : List Nat) (k1 : PrivateKey) (pk : PublicKey) (k2 : PrivateKey)
      (c d : Nat),
      seed.length = 57 →
      mkPrivateKey (generator_ed448 H) seed = .ok k →
      PrivateKey.sign k data = .ok (sig, k1) →
      PrivateKey.publicKey k = .ok (pk, k2, c, d) →
      PublicKey.verify pk data sig = .ok true) := by
  constructor
  · intro H seed data k sig k1 pk k2 c d hl hk hs hp
    have e1 : seed.length = (generator_ed25519 H).curve.baselen := by
      rw [gen25519_curve, baselen_ed25519]
      exact hl
    have e2 : (generator_ed25519 H).curve.h = 4 ∨
        (generator_ed25519 H).curve.h = 8 := by
      rw [gen25519_curve]
      exact Or.inr rfl
    have e3 : 0 < (generator_ed25519 H).order := by
      rw [gen25519_order]
      exact order_ed25519_pos
    have e4 : (generator_ed25519 H).order ≤
        256 ^ (generator_ed25519 H).curve.baselen := by
      rw [gen25519_order, gen25519_curve, baselen_ed25519]
      exact order_ed25519_le
    exact sign_then_verify (generator_ed25519 H) seed data e1 e2 e3 e4
      k sig k1 pk k2 c d hk hs hp
  · intro H seed data k sig k1 pk k2 c d hl hk hs hp
    have e1 : seed.length = (generator_ed448 H).curve.baselen := by
      rw [gen448_curve, baselen_ed448]
      exact hl
    have e2 : (generator_ed448 H).curve.h = 4 ∨
        (generator_ed448 H).curve.h = 8 := by
      rw [gen448_curve]
      exact Or.inl rfl
    have e3 : 0 < (generator_ed448 H).order := by
      rw [gen448_order]
      exact order_ed448_pos
    have e4 : (generator_ed448 H).order ≤
        256 ^ (generator_ed448 H).curve.baselen := by
      rw [gen448_order, gen448_curve, baselen_ed448]
      exact order_ed448_le
    exact sign_then_verify (generator_ed448 H) seed data e1 e2 e3 e4
      k sig k1 pk k2 c d hk hs hp

/-- Witness for C1: concrete end-to-end sign/verify runs on both curves with
a stand-in hash primitive and the all-ones seeds, on the empty message. -/
theorem sign_verify_roundtrip_witness :
    PublicKey.verify
        (⟨generator_ed25519 (fun _ => List.replicate 114 1), curve_ed25519,
          int_to_bytes (bytes_to_int (0 :: (List.replicate 30 1 ++ [65]))
            % order_ed25519) 32,
          bytes_to_int (0 :: (List.replicate 30 1 ++ [65])) % order_ed25519,
          32⟩ : PublicKey) []
        (int_to_bytes (bytes_to_int (List.replicate 114 1) % order_ed25519) 32
          ++ int_to_bytes ((bytes_to_int (List.replicate 114 1) +
              bytes_to_int (List.replicate 114 1) % order_ed25519 *
                bytes_to_int (0 :: (List.replicate 30 1 ++ [65])))
            % order_ed25519) 32) = .ok true ∧
    PublicKey.verify
        (⟨generator_ed448 (fun _ => List.replicate 114 1), curve_ed448,
          int_to_bytes (bytes_to_int (0 :: (List.replicate 54 1 ++ [129, 0]))
            % order_ed448) 57,
          bytes_to_int (0 :: (List.replicate 54 1 ++ [129, 0])) % order_ed448,
          57⟩ : PublicKey) []
        (int_to_bytes (bytes_to_int (List.replicate 114 1) % order_ed448) 57
          ++ int_to_bytes ((bytes_to_int (List.replicate 114 1) +
              bytes_to_int (List.replicate 114 1) % order_ed448 *
                bytes_to_int (0 :: (List.replicate 54 1 ++ [129, 0])))
            % order_ed448) 57) = .ok true :=
  by
  have hk25 : mkPrivateKey (generator_ed25519 (fun _ => List.replicate 114 1))
      (List.replicate 32 1) =
      .ok (⟨generator_ed25519 (fun _ => List.replicate 114 1), curve_ed25519,
        32, List.replicate 32 1, List.replicate 114 1, none,
        bytes_to_int (0 :: (List.replicate 30 1 ++ [65]))⟩ : PrivateKey) := rfl
  have hs25 : PrivateKey.sign
      (⟨generator_ed25519 (fun _ => List.replicate 114 1), curve_ed25519,
        32, List.replicate 32 1, List.replicate 114 1, none,
        bytes_to_int (0 :: (List.replicate 30 1 ++ [65]))⟩ : PrivateKey) [] =
      .ok (int_to_bytes (bytes_to_int (List.replicate 114 1) % order_ed25519)
          32 ++ int_to_bytes ((bytes_to_int (List.replicate 114 1) +
            bytes_to_int (List.replicate 114 1) % order_ed25519 *
              bytes_to_int (0 :: (List.replicate 30 1 ++ [65])))
          % order_ed25519) 32,
        (⟨generator_ed25519 (fun _ => List.replicate 114 1), curve_ed25519,
          32, List.replicate 32 1, List.replicate 114 1,
          some ⟨generator_ed25519 (fun _ => List.replicate 114 1),
            curve_ed25519,
            int_to_bytes (bytes_to_int (0 :: (List.replicate 30 1 ++ [65]))
              % order_ed25519) 32,
            bytes_to_int (0 :: (List.replicate 30 1 ++ [65])) % order_ed25519,
            32⟩,
          bytes_to_int (0 :: (List.replicate 30 1 ++ [65]))⟩ : PrivateKey)) :=
    rfl
  have hp25 : PrivateKey.publicKey
      (⟨generator_ed25519 (fun _ => List.replicate 114 1), curve_ed25519,
        32, List.replicate 32 1, List.replicate 114 1, none,
        bytes_to_int (0 :: (List.replicate 30 1 ++ [65]))⟩ : PrivateKey) =
      .ok ((⟨generator_ed25519 (fun _ => List.replicate 114 1), curve_ed25519,
          int_to_bytes (bytes_to_int (0 :: (List.replicate 30 1 ++ [65]))
            % order_ed25519) 32,
          bytes_to_int (0 :: (List.replicate 30 1 ++ [65])) % order_ed25519,
          32⟩ : PublicKey),
        (⟨generator_ed25519 (fun _ => List.replicate 114 1), curve_ed25519,
          32, List.replicate 32 1, List.replicate 114 1,
          some ⟨generator_ed25519 (fun _ => List.replicate 114 1),
            curve_ed25519,
            int_to_bytes (bytes_to_int (0 :: (List.replicate 30 1 ++ [65]))
              % order_ed25519) 32,
            bytes_to_int (0 :: (List.replicate 30 1 ++ [65])) % order_ed25519,
            32⟩,
          bytes_to_int (0 :: (List.replicate 30 1 ++ [65]))⟩ : PrivateKey),
        1, 0) := rfl
  have hk44 : mkPrivateKey (generator_ed448 (fun _ => List.replicate 114 1))
      (List.replicate 57 1) =
      .ok (⟨generator_ed448 (fun _ => List.replicate 114 1), curve_ed448,
        57, List.replicate 57 1, List.replicate 114 1, none,
        bytes_to_int (0 :: (List.replicate 54 1 ++ [129, 0]))⟩ :
        PrivateKey) := rfl
  have hs44 : PrivateKey.sign
      (⟨generator_ed448 (fun _ => List.replicate 114 1), curve_ed448,
        57, List.replicate 57 1, List.replicate 114 1, none,
        bytes_to_int (0 :: (List.replicate 54 1 ++ [129, 0]))⟩ :
        PrivateKey) [] =
      .ok (int_to_bytes (bytes_to_int (List.replicate 114 1) % order_ed448)
          57 ++ int_to_bytes ((bytes_to_int (List.replicate 114 1) +
            bytes_to_int (List.replicate 114 1) % order_ed448 *
              bytes_to_int (0 :: (List.replicate 54 1 ++ [129, 0])))
          % order_ed448) 57,
        (⟨generator_ed448 (fun _ => List.replicate 114 1), curve_ed448,
          57, List.replicate 57 1, List.replicate 114 1,
          some ⟨generator_ed448 (fun _ => List.replicate 114 1), curve_ed448,
            int_to_bytes (bytes_to_int (0 :: (List.replicate 54 1 ++ [129, 0]))
              % order_ed448) 57,
            bytes_to_int (0 :: (List.replicate 54 1 ++ [129, 0])) % order_ed448,
            57⟩,
          bytes_to_int (0 :: (List.replicate 54 1 ++ [129, 0]))⟩ :
          PrivateKey)) := rfl
  have hp44 : PrivateKey.publicKey
      (⟨generator_ed448 (fun _ => List.replicate 114 1), curve_ed448,
        57, List.replicate 57 1, List.replicate 114 1, none,
        bytes_to_int (0 :: (List.replicate 54 1 ++ [129, 0]))⟩ :
        PrivateKey) =
      .ok ((⟨generator_ed448 (fun _ => List.replicate 114 1), curve_ed448,
          int_to_bytes (bytes_to_int (0 :: (List.replicate 54 1 ++ [129, 0]))
            % order_ed448) 57,
          bytes_to_int (0 :: (List.replicate 54 1 ++ [129, 0])) % order_ed448,
          57⟩ : PublicKey),
        (⟨generator_ed448 (fun _ => List.replicate 114 1), curve_ed448,
          57, List.replicate 57 1, List.replicate 114 1,
          some ⟨generator_ed448 (fun _ => List.replicate 114 1), curve_ed448,
            int_to_bytes (bytes_to_int (0 :: (List.replicate 54 1 ++ [129, 0]))
              % order_ed448) 57,
            bytes_to_int (0 :: (List.replicate 54 1 ++ [129, 0])) % order_ed448,
            57⟩,
          bytes_to_int (0 :: (List.replicate 54 1 ++ [129, 0]))⟩ :
          PrivateKey),
        1, 0) := rfl
  exact ⟨sign_verify_roundtrip.1 (fun _ => List.replicate 114 1)
      (List.replicate 32 1) [] _ _ _ _ _ 1 0 rfl hk25 hs25 hp25,
    sign_verify_roundtrip.2 (fun _ => List.replicate 114 1)
      (List.replicate 57 1) [] _ _ _ _ _ 1 0 rfl hk44 hs44 hp44⟩
